import Mathlib

/-
  Verification of the robotoc trajectory-optimization solver specification
  against a shallow embedding of its sources.

  Numeric values are embedded as rationals (ℚ); Eigen vectors become lists
  of rationals, and elementwise Eigen expressions become List.zipWith.
  Components whose implementation files are not among the provided sources
  (only their declarations, tests or callers are) carry a doc comment
  starting with "Modelled from the spec:" and follow the specification
  text; everything else is translated from the source files.
-/

namespace Robotoc

/-- A dynamically sized real vector (Eigen::VectorXd) as a list of rationals. -/
abbrev Vec : Type := List ℚ

/-- Elementwise sum of two vectors (Eigen operator+). -/
def vadd (a b : Vec) : Vec := List.zipWith (· + ·) a b

/-- Elementwise difference of two vectors (Eigen operator-). -/
def vsub (a b : Vec) : Vec := List.zipWith (· - ·) a b

/-- Scalar multiple of a vector. -/
def vscale (c : ℚ) (a : Vec) : Vec := a.map (fun x => c * x)

/-- Every entry of the vector is nonnegative (vec.minCoeff() >= 0). -/
def vnonneg (a : Vec) : Prop := ∀ x ∈ a, 0 ≤ x

instance (a : Vec) : Decidable (vnonneg a) := inferInstanceAs (Decidable (∀ x ∈ a, 0 ≤ x))

/-- Every entry of the vector is zero. -/
def vzero (a : Vec) : Prop := ∀ x ∈ a, x = 0

instance (a : Vec) : Decidable (vzero a) := inferInstanceAs (Decidable (∀ x ∈ a, x = 0))

/-- Constraint data of a single inequality-constraint component
(robotoc::ConstraintComponentData): primal residual, slack, dual,
complementary-slackness residual, and the direction buffers. -/
structure ConstraintComponentData where
  residual : Vec
  slack : Vec
  dual : Vec
  cmpl : Vec
  dslack : Vec
  ddual : Vec
  log_barrier : ℚ
deriving DecidableEq

namespace pdipm

/-- Modelled from the spec: `pdipm::setSlackAndDualPositive` (implementation
file robotoc/constraints/pdipm.hxx is not among the sources; only its test
is). The spec requires that after the call `slack >= barrier` and
`dual >= barrier` hold elementwise, so each entry is clamped from below
by the barrier parameter. -/
def setSlackAndDualPositive (barrier : ℚ) (data : ConstraintComponentData) :
    ConstraintComponentData :=
  { data with
    slack := data.slack.map (fun x => max x barrier)
    dual := data.dual.map (fun x => max x barrier) }

/-- Modelled from the spec: `pdipm::computeComplementarySlackness`
(implementation file not among the sources). The spec states
`cmpl_i = slack_i * dual_i - barrier` for all i. -/
def computeComplementarySlackness (barrier : ℚ)
    (data : ConstraintComponentData) : ConstraintComponentData :=
  { data with
    cmpl := List.zipWith (fun s d => s * d - barrier) data.slack data.dual }

/-- Direction of the dual variables, elementwise over the four buffers:
`ddual_i = -(dual_i * dslack_i + cmpl_i) / slack_i`. -/
def dualDirList : List ℚ → List ℚ → List ℚ → List ℚ → List ℚ
  | s :: ss, d :: ds, dsl :: dsls, c :: cs =>
      (-(d * dsl + c) / s) :: dualDirList ss ds dsls cs
  | _, _, _, _ => []

/-- Modelled from the spec: `pdipm::computeDualDirection` (implementation
file not among the sources). The spec states
`ddual_i = -(dual_i * dslack_i + cmpl_i) / slack_i` for all i. -/
def computeDualDirection (data : ConstraintComponentData) :
    ConstraintComponentData :=
  { data with
    ddual := dualDirList data.slack data.dual data.dslack data.cmpl }

/-- One step of the fraction-to-boundary minimization: a descent entry
(dvec_i < 0) contributes the candidate step `-(rate * vec_i) / dvec_i`. -/
def ftbStep (rate : ℚ) (m : ℚ) (p : ℚ × ℚ) : ℚ :=
  if p.2 < 0 then min m (-(rate * p.1) / p.2) else m

/-- Modelled from the spec: `pdipm::fractionToBoundary` (implementation file
not among the sources). Following the fraction-to-boundary rule of the spec,
it returns the largest step `α ∈ (0,1]` such that
`vec + α*dvec ≥ (1-rate)*vec` holds elementwise, computed as the minimum of
1 and the candidate steps of the descent entries. -/
def fractionToBoundary (rate : ℚ) (vec dvec : Vec) : ℚ :=
  (vec.zip dvec).foldl (ftbStep rate) 1

/-- Modelled from the spec: `pdipm::fractionToBoundarySlack` applies the
fraction-to-boundary rule to the slack and its direction. -/
def fractionToBoundarySlack (rate : ℚ) (data : ConstraintComponentData) : ℚ :=
  fractionToBoundary rate data.slack data.dslack

/-- Modelled from the spec: `pdipm::fractionToBoundaryDual` applies the
fraction-to-boundary rule to the dual and its direction. -/
def fractionToBoundaryDual (rate : ℚ) (data : ConstraintComponentData) : ℚ :=
  fractionToBoundary rate data.dual data.ddual

end pdipm

/-- The PDIPM parameters held by every constraint component
(robotoc::ConstraintComponentBase): the barrier parameter and the margin
parameter of the fraction-to-boundary rule. -/
structure ConstraintComponentBase where
  barrier_param : ℚ
  fraction_to_boundary_rule : ℚ
deriving DecidableEq

namespace ConstraintComponentBase

/-- Modelled from the spec: `ConstraintComponentBase::maxSlackStepSize`
(implementation file not among the sources; the declaration is) applies the
fraction-to-boundary rule with the configured margin parameter to the slack
and its direction. -/
def maxSlackStepSize (b : ConstraintComponentBase)
    (data : ConstraintComponentData) : ℚ :=
  pdipm.fractionToBoundarySlack b.fraction_to_boundary_rule data

/-- Modelled from the spec: `ConstraintComponentBase::maxDualStepSize`
(implementation file not among the sources; the declaration is) applies the
fraction-to-boundary rule with the configured margin parameter to the dual
and its direction. -/
def maxDualStepSize (b : ConstraintComponentBase)
    (data : ConstraintComponentData) : ℚ :=
  pdipm.fractionToBoundaryDual b.fraction_to_boundary_rule data

end ConstraintComponentBase

/-- Outcome of a C++ call site that validates its arguments inside a
try/catch block: either the call completes normally with a value, or the
catch handler prints the message of the thrown exception and terminates
the whole process via std::exit(EXIT_FAILURE). -/
inductive CallOutcome (α : Type) where
  | ok (value : α) : CallOutcome α
  | processExit (message : String) : CallOutcome α
deriving DecidableEq

/-- True when the call terminated the process instead of returning. -/
def CallOutcome.isProcessExit {α : Type} : CallOutcome α → Bool
  | .ok _ => false
  | .processExit _ => true

/-- State of robotoc::DirectMultipleShooting relevant to construction:
the maximum number of impulses, the number of worker threads, and the
size of the KKT-error accumulation vector. -/
structure DirectMultipleShooting where
  max_num_impulse : Int
  nthreads : Int
  kkt_error_dim : Int
deriving DecidableEq

namespace DirectMultipleShooting

/-- The validating constructor
DirectMultipleShooting(N, max_num_impulse, nthreads): a negative
max_num_impulse or a non-positive nthreads throws std::out_of_range, which
the surrounding catch block turns into a message on stderr followed by
std::exit(EXIT_FAILURE). -/
def construct (N max_num_impulse nthreads : Int) :
    CallOutcome DirectMultipleShooting :=
  if max_num_impulse < 0 then
    .processExit "invalid value: max_num_impulse must be non-negative!"
  else if nthreads ≤ 0 then
    .processExit "invalid value: nthreads must be positive!"
  else
    .ok { max_num_impulse := max_num_impulse, nthreads := nthreads,
          kkt_error_dim := N + 1 + 4 * max_num_impulse }

end DirectMultipleShooting

/-- A 3-dimensional vector (Eigen::Vector3d). -/
structure V3 where
  x : ℚ
  y : ℚ
  z : ℚ
deriving DecidableEq

/-- State of robotoc::LocalContactForceCost relevant to its setters: the
number of contact points of the robot model and the reference/weight
vectors, one per contact point. -/
structure LocalContactForceCost where
  max_point_contacts : Nat
  f_ref : List V3
  f_weight : List V3
deriving DecidableEq

namespace LocalContactForceCost

/-- LocalContactForceCost::set_f_ref: a reference-force list whose length
differs from the number of contact points of the model throws
std::invalid_argument, which the surrounding catch block turns into a
message on stderr followed by std::exit(EXIT_FAILURE). -/
def set_f_ref (cost : LocalContactForceCost) (f_ref : List V3) :
    CallOutcome LocalContactForceCost :=
  if f_ref.length ≠ cost.max_point_contacts then
    .processExit "invalid size: f_ref.size() must be max_point_contacts!"
  else
    .ok { cost with f_ref := f_ref }

end LocalContactForceCost

/-- Per-stage primal variables (robotoc::SplitSolution restricted to the
fields used here): configuration, generalized velocity, acceleration,
control input, and the per-contact forces. -/
structure SplitSolution where
  q : Vec
  v : Vec
  a : Vec
  u : Vec
  f : List V3

/-- Per-stage search direction (robotoc::SplitDirection restricted to the
state-deviation fields). -/
structure SplitDirection where
  dq : Vec
  dv : Vec
deriving DecidableEq

/-- Modelled from the spec: `SplitOCP::computeInitialStateDirection` (its
implementation file is not among the sources; only the forwarding wrapper
`DirectMultipleShooting::computeInitialStateDirection` is). Per the spec,
the initial state is given and not optimized, so the state-deviation
direction of the first stage is fixed to zero. -/
def SplitOCP.computeInitialStateDirection (q0 v0 : Vec) (s0 : SplitSolution)
    (d0 : SplitDirection) : SplitDirection :=
  { d0 with
    dq := List.replicate d0.dq.length 0
    dv := List.replicate d0.dv.length 0 }

/-- DirectMultipleShooting::computeInitialStateDirection: delegates to the
first split OCP stage, updating the direction of the first stage in place
(d[0]) from the supplied initial state (q0, v0) and the first-stage
solution (s[0]). -/
def DirectMultipleShooting.computeInitialStateDirection (q0 v0 : Vec)
    (s : List SplitSolution) (d : List SplitDirection) :
    List SplitDirection :=
  match s, d with
  | s0 :: _, d0 :: drest =>
      SplitOCP.computeInitialStateDirection q0 v0 s0 d0 :: drest
  | _, _ => d

/-- Activity pattern of the contact points of the robot at one stage
(robotoc::ContactStatus restricted to the activity flags). -/
structure ContactStatus where
  is_contact_active : List Bool
deriving DecidableEq

/-- Modelled from the spec: the external rigid-body dynamics engine
(robot.hpp; treated by the spec as an out-of-scope collaborator and not
among the sources). `ID` is the generalized inverse dynamics ID(q,v,a)
without contact forces, `JTf` is the contact-force term J^T f of the
active contacts (J is the contact Jacobian at configuration q), and
`baum` is the Baumgarte-stabilized acceleration-level contact-constraint
residual C(q,v,a). -/
structure RobotModel where
  ID : Vec → Vec → Vec → Vec
  JTf : Vec → ContactStatus → List V3 → Vec
  baum : ContactStatus → Vec → Vec → Vec → Vec

/-- The dynamics engine together with its stored external contact forces;
Robot::setContactForces stores the forces, and Robot::RNEA evaluates the
inverse dynamics under those stored forces. -/
structure Robot where
  model : RobotModel
  fext_status : ContactStatus
  fext : List V3

namespace Robot

/-- Robot::setContactForces(contact_status, f): stores the contact forces
of the active contacts for the next inverse-dynamics evaluation. -/
def setContactForces (r : Robot) (contact_status : ContactStatus)
    (f : List V3) : Robot :=
  { r with fext_status := contact_status, fext := f }

/-- Modelled from the spec: Robot::RNEA(q, v, a) evaluates the inverse
dynamics under the stored external contact forces, i.e.
ID(q,v,a) - J^T f. -/
def RNEA (r : Robot) (q v a : Vec) : Vec :=
  vsub (r.model.ID q v a) (r.model.JTf q r.fext_status r.fext)

end Robot

/-- Residuals of the contact dynamics at one stage
(robotoc::ContactDynamicsData restricted to the residual blocks): the
inverse-dynamics residual ID and the contact-constraint residual C. -/
structure ContactDynamicsData where
  ID_res : Vec
  C_res : Vec

/-- ContactDynamics::evalContactDynamics: sets the external contact forces
from the stage solution, evaluates the inverse dynamics through RNEA,
subtracts the applied control input u, and evaluates the Baumgarte
contact-constraint residual. -/
def ContactDynamics.evalContactDynamics (robot : Robot)
    (contact_status : ContactStatus) (s : SplitSolution) :
    Robot × ContactDynamicsData :=
  let robot1 := robot.setContactForces contact_status s.f
  let id_full := robot1.RNEA s.q s.v s.a
  let id_res := vsub id_full s.u
  let c_res := robot1.model.baum contact_status s.q s.v s.a
  (robot1, { ID_res := id_res, C_res := c_res })

/-- Type of one contact: a point contact stacks 3 force components, a
surface contact stacks all 6 (robotoc::ContactType). -/
inductive ContactType where
  | PointContact
  | SurfaceContact
deriving DecidableEq

/-- A contact wrench (Eigen::Matrix<double,6,1>): upper 3 entries linear,
lower 3 entries angular. -/
structure Vec6 where
  e0 : ℚ
  e1 : ℚ
  e2 : ℚ
  e3 : ℚ
  e4 : ℚ
  e5 : ℚ
deriving DecidableEq

/-- Modelled from the spec: stacking of the per-contact vectors into the
active stack (ImpulseSplitSolution::set_f_stack / set_mu_stack; the
implementation file impulse_split_solution.hxx is not among the sources,
only the header declarations are). Each active contact contributes its
first 3 components (point contact) or all 6 components (surface contact),
in contact order; inactive contacts contribute nothing. -/
def stackActive : List (ContactType × Bool) → List Vec6 → List ℚ
  | (ct, active) :: cs, w :: ws =>
      (if active then
        match ct with
        | .PointContact => [w.e0, w.e1, w.e2]
        | .SurfaceContact => [w.e0, w.e1, w.e2, w.e3, w.e4, w.e5]
      else []) ++ stackActive cs ws
  | _, _ => []

/-- Modelled from the spec: unstacking of the active stack back into the
per-contact vectors (ImpulseSplitSolution::set_f_vector / set_mu_vector).
Each active contact consumes its first 3 (point) or all 6 (surface)
components from the stack, leaving the remaining components of a point
contact and every inactive contact unchanged. -/
def unstackActive : List (ContactType × Bool) → List Vec6 → List ℚ → List Vec6
  | (ct, active) :: cs, w :: ws, st =>
      if active then
        match ct with
        | .PointContact =>
          match st with
          | a :: b :: c :: rest =>
              { w with e0 := a, e1 := b, e2 := c } :: unstackActive cs ws rest
          | _ => w :: unstackActive cs ws []
        | .SurfaceContact =>
          match st with
          | a :: b :: c :: d :: e :: f :: rest =>
              ⟨a, b, c, d, e, f⟩ :: unstackActive cs ws rest
          | _ => w :: unstackActive cs ws []
      else w :: unstackActive cs ws st
  | _, ws, _ => ws

/-- Solution at an impulse stage (robotoc::ImpulseSplitSolution restricted
to the contact forces, the contact-constraint multipliers and their active
stacks). -/
structure ImpulseSplitSolution where
  contacts : List (ContactType × Bool)
  f : List Vec6
  mu : List Vec6
  f_stack : List ℚ
  mu_stack : List ℚ
deriving DecidableEq

namespace ImpulseSplitSolution

/-- ImpulseSplitSolution::set_f_stack: fills the active-force stack from f. -/
def set_f_stack (s : ImpulseSplitSolution) : ImpulseSplitSolution :=
  { s with f_stack := stackActive s.contacts s.f }

/-- ImpulseSplitSolution::set_f_vector: fills f from the active-force stack. -/
def set_f_vector (s : ImpulseSplitSolution) : ImpulseSplitSolution :=
  { s with f := unstackActive s.contacts s.f s.f_stack }

/-- ImpulseSplitSolution::set_mu_stack: fills the active multiplier stack
from mu. -/
def set_mu_stack (s : ImpulseSplitSolution) : ImpulseSplitSolution :=
  { s with mu_stack := stackActive s.contacts s.mu }

/-- ImpulseSplitSolution::set_mu_vector: fills mu from the active
multiplier stack. -/
def set_mu_vector (s : ImpulseSplitSolution) : ImpulseSplitSolution :=
  { s with mu := unstackActive s.contacts s.mu s.mu_stack }

end ImpulseSplitSolution

/-- Per-component aggregate quantities consumed by ConstraintsData
(the member functions ConstraintComponentData::KKTError and
primalFeasibility/dualFeasibility are implemented outside the provided
sources, so each component is summarized by the values they return
together with its stored log-barrier value). -/
structure ComponentSummary where
  kkt_error : ℚ
  log_barrier : ℚ
  primal_feasibility : ℚ
  dual_feasibility : ℚ
deriving DecidableEq

/-- Constraint data of one stage split by kinematics level
(robotoc::ConstraintsData): the four validity flags and the four lists of
per-component data. -/
structure ConstraintsData where
  is_position_level_valid : Bool
  is_velocity_level_valid : Bool
  is_acceleration_level_valid : Bool
  is_impulse_level_valid : Bool
  position_level_data : List ComponentSummary
  velocity_level_data : List ComponentSummary
  acceleration_level_data : List ComponentSummary
  impulse_level_data : List ComponentSummary
deriving DecidableEq

namespace ConstraintsData

/-- ConstraintsData::setTimeStage: selects which kinematics levels are
valid for the given time stage. -/
def setTimeStage (time_stage : Int) (d : ConstraintsData) : ConstraintsData :=
  if time_stage ≥ 2 then
    { d with is_position_level_valid := true, is_velocity_level_valid := true,
             is_acceleration_level_valid := true, is_impulse_level_valid := false }
  else if time_stage = 1 then
    { d with is_position_level_valid := false, is_velocity_level_valid := true,
             is_acceleration_level_valid := true, is_impulse_level_valid := false }
  else if time_stage = 0 then
    { d with is_position_level_valid := false, is_velocity_level_valid := false,
             is_acceleration_level_valid := true, is_impulse_level_valid := false }
  else if time_stage ≤ -1 then
    { d with is_position_level_valid := false, is_velocity_level_valid := false,
             is_acceleration_level_valid := false, is_impulse_level_valid := true }
  else d

/-- Accumulates a per-component quantity over the lists of the valid
kinematics levels only, mirroring the four guarded loops of the
ConstraintsData aggregate member functions. -/
def sumValid (d : ConstraintsData) (g : ComponentSummary → ℚ) : ℚ :=
  (if d.is_position_level_valid then (d.position_level_data.map g).sum else 0)
  + (if d.is_velocity_level_valid then (d.velocity_level_data.map g).sum else 0)
  + (if d.is_acceleration_level_valid then (d.acceleration_level_data.map g).sum else 0)
  + (if d.is_impulse_level_valid then (d.impulse_level_data.map g).sum else 0)

/-- ConstraintsData::KKTError: sums the components of the valid levels. -/
def KKTError (d : ConstraintsData) : ℚ := d.sumValid (fun c => c.kkt_error)

/-- ConstraintsData::logBarrier: sums the components of the valid levels. -/
def logBarrier (d : ConstraintsData) : ℚ := d.sumValid (fun c => c.log_barrier)

/-- ConstraintsData::primalFeasibility: sums the components of the valid
levels. -/
def primalFeasibility (d : ConstraintsData) : ℚ :=
  d.sumValid (fun c => c.primal_feasibility)

/-- ConstraintsData::dualFeasibility: sums the components of the valid
levels. -/
def dualFeasibility (d : ConstraintsData) : ℚ :=
  d.sumValid (fun c => c.dual_feasibility)

end ConstraintsData

/-- Abstract SE3 and matrix operations of the external kinematics engine
(pinocchio and the Robot frame kinematics; out of scope per the spec):
`M` is the type of SE3 placements and `Mat` the type of the 6x6 and
6-by-dimv Jacobian matrices. -/
structure LieOps (M Mat : Type) where
  inv : M → M
  mul : M → M → M
  log6 : M → Vec
  jlog6 : M → Mat
  matMul : Mat → Mat → Mat
  transposeMat : Mat → Mat
  mulVec : Mat → Vec → Vec
  diag : Vec → Mat
  matAdd : Mat → Mat → Mat
  matScale : ℚ → Mat → Mat

/-- Frame kinematics of the robot as consumed by the task-space cost:
placement and Jacobian of a frame, already evaluated at the current
configuration. -/
structure FrameKinematics (M Mat : Type) where
  framePlacement : Int → M
  frameJacobian : Int → Mat

/-- The time-varying task-space reference
(robotoc::TimeVaryingTaskSpace6DRefBase): whether the reference is active
at time t, and the reference placement at time t. -/
structure TaskSpace6DRef (M : Type) where
  isActive : ℚ → Bool
  se3Ref : ℚ → M

/-- Scratch data of a cost component (robotoc::CostFunctionData restricted
to the fields used by the task-space 6D cost). -/
structure CostFunctionData (M Mat : Type) where
  SE3_ref : M
  SE3_ref_inv : M
  diff_SE3 : M
  diff_6d : Vec
  J_66 : Mat
  J_6d : Mat
  JJ_6d : Mat

/-- robotoc::TimeVaryingTaskSpace6DCost: the tracked frame, the reference,
and the stage/terminal/impulse weight vectors. -/
structure TimeVaryingTaskSpace6DCost (M : Type) where
  frame_id : Int
  ref : TaskSpace6DRef M
  q_6d_weight : Vec
  qf_6d_weight : Vec
  qi_6d_weight : Vec

namespace TimeVaryingTaskSpace6DCost

variable {M Mat : Type}

/-- The weighted squared norm (w.array()*d.array()*d.array()).sum(). -/
def weightedSq (w d : Vec) : ℚ := (List.zipWith (fun wi di => wi * di * di) w d).sum

/-- Shared body of the three cost evaluations in the active case: updates
the reference placement, its inverse, the frame-placement difference and
its log, and returns the weighted squared norm of the difference. -/
def evalDiff (ops : LieOps M Mat) (kin : FrameKinematics M Mat)
    (cost : TimeVaryingTaskSpace6DCost M) (w : Vec) (t : ℚ)
    (data : CostFunctionData M Mat) : ℚ × CostFunctionData M Mat :=
  let se3_ref := cost.ref.se3Ref t
  let se3_ref_inv := ops.inv se3_ref
  let diff_se3 := ops.mul se3_ref_inv (kin.framePlacement cost.frame_id)
  let diff_6d := ops.log6 diff_se3
  (weightedSq w diff_6d,
   { data with SE3_ref := se3_ref, SE3_ref_inv := se3_ref_inv,
               diff_SE3 := diff_se3, diff_6d := diff_6d })

/-- TimeVaryingTaskSpace6DCost::evalStageCost. -/
def evalStageCost (ops : LieOps M Mat) (kin : FrameKinematics M Mat)
    (cost : TimeVaryingTaskSpace6DCost M) (t dt : ℚ)
    (data : CostFunctionData M Mat) : ℚ × CostFunctionData M Mat :=
  if cost.ref.isActive t then
    let r := evalDiff ops kin cost cost.q_6d_weight t data
    (1/2 * dt * r.1, r.2)
  else (0, data)

/-- TimeVaryingTaskSpace6DCost::evalTerminalCost. -/
def evalTerminalCost (ops : LieOps M Mat) (kin : FrameKinematics M Mat)
    (cost : TimeVaryingTaskSpace6DCost M) (t : ℚ)
    (data : CostFunctionData M Mat) : ℚ × CostFunctionData M Mat :=
  if cost.ref.isActive t then
    let r := evalDiff ops kin cost cost.qf_6d_weight t data
    (1/2 * r.1, r.2)
  else (0, data)

/-- TimeVaryingTaskSpace6DCost::evalImpulseCost. -/
def evalImpulseCost (ops : LieOps M Mat) (kin : FrameKinematics M Mat)
    (cost : TimeVaryingTaskSpace6DCost M) (t : ℚ)
    (data : CostFunctionData M Mat) : ℚ × CostFunctionData M Mat :=
  if cost.ref.isActive t then
    let r := evalDiff ops kin cost cost.qi_6d_weight t data
    (1/2 * r.1, r.2)
  else (0, data)

/-- Shared body of the three derivative evaluations in the active case:
computes J_66, J_6d and their product and adds
scale * JJ^T * w.asDiagonal() * diff_6d to the configuration block lq of
the KKT residual. -/
def evalDerivsActive (ops : LieOps M Mat) (kin : FrameKinematics M Mat)
    (cost : TimeVaryingTaskSpace6DCost M) (w : Vec) (scale : ℚ)
    (data : CostFunctionData M Mat) (lq : Vec) :
    CostFunctionData M Mat × Vec :=
  let j66 := ops.jlog6 data.diff_SE3
  let j6d := kin.frameJacobian cost.frame_id
  let jj := ops.matMul j66 j6d
  let contrib := ops.mulVec (ops.transposeMat jj)
                   (List.zipWith (· * ·) w data.diff_6d)
  ({ data with J_66 := j66, J_6d := j6d, JJ_6d := jj },
   vadd lq (vscale scale contrib))

/-- TimeVaryingTaskSpace6DCost::evalStageCostDerivatives: adds to lq only
when the reference is active. -/
def evalStageCostDerivatives (ops : LieOps M Mat) (kin : FrameKinematics M Mat)
    (cost : TimeVaryingTaskSpace6DCost M) (t dt : ℚ)
    (data : CostFunctionData M Mat) (lq : Vec) :
    CostFunctionData M Mat × Vec :=
  if cost.ref.isActive t then
    evalDerivsActive ops kin cost cost.q_6d_weight dt data lq
  else (data, lq)

/-- TimeVaryingTaskSpace6DCost::evalTerminalCostDerivatives. -/
def evalTerminalCostDerivatives (ops : LieOps M Mat)
    (kin : FrameKinematics M Mat) (cost : TimeVaryingTaskSpace6DCost M)
    (t : ℚ) (data : CostFunctionData M Mat) (lq : Vec) :
    CostFunctionData M Mat × Vec :=
  if cost.ref.isActive t then
    evalDerivsActive ops kin cost cost.qf_6d_weight 1 data lq
  else (data, lq)

/-- TimeVaryingTaskSpace6DCost::evalImpulseCostDerivatives. -/
def evalImpulseCostDerivatives (ops : LieOps M Mat)
    (kin : FrameKinematics M Mat) (cost : TimeVaryingTaskSpace6DCost M)
    (t : ℚ) (data : CostFunctionData M Mat) (lq : Vec) :
    CostFunctionData M Mat × Vec :=
  if cost.ref.isActive t then
    evalDerivsActive ops kin cost cost.qi_6d_weight 1 data lq
  else (data, lq)

/-- Shared body of the three Hessian evaluations in the active case:
adds scale * JJ^T * w.asDiagonal() * JJ to the configuration block Qqq of
the KKT matrix. -/
def evalHessActive (ops : LieOps M Mat) (w : Vec) (scale : ℚ)
    (data : CostFunctionData M Mat) (Qqq : Mat) : Mat :=
  ops.matAdd Qqq
    (ops.matScale scale
      (ops.matMul (ops.transposeMat data.JJ_6d)
        (ops.matMul (ops.diag w) data.JJ_6d)))

/-- TimeVaryingTaskSpace6DCost::evalStageCostHessian: adds to Qqq only
when the reference is active. -/
def evalStageCostHessian (ops : LieOps M Mat)
    (cost : TimeVaryingTaskSpace6DCost M) (t dt : ℚ)
    (data : CostFunctionData M Mat) (Qqq : Mat) : Mat :=
  if cost.ref.isActive t then
    evalHessActive ops cost.q_6d_weight dt data Qqq
  else Qqq

/-- TimeVaryingTaskSpace6DCost::evalTerminalCostHessian. -/
def evalTerminalCostHessian (ops : LieOps M Mat)
    (cost : TimeVaryingTaskSpace6DCost M) (t : ℚ)
    (data : CostFunctionData M Mat) (Qqq : Mat) : Mat :=
  if cost.ref.isActive t then
    evalHessActive ops cost.qf_6d_weight 1 data Qqq
  else Qqq

/-- TimeVaryingTaskSpace6DCost::evalImpulseCostHessian. -/
def evalImpulseCostHessian (ops : LieOps M Mat)
    (cost : TimeVaryingTaskSpace6DCost M) (t : ℚ)
    (data : CostFunctionData M Mat) (Qqq : Mat) : Mat :=
  if cost.ref.isActive t then
    evalHessActive ops cost.qi_6d_weight 1 data Qqq
  else Qqq

end TimeVaryingTaskSpace6DCost

/-! ### Helper lemmas -/

theorem getD_zipWith (f : ℚ → ℚ → ℚ) (a b : List ℚ) (i : ℕ)
    (h : i < (List.zipWith f a b).length) :
    (List.zipWith f a b).getD i 0 = f (a.getD i 0) (b.getD i 0) := by
  induction a generalizing b i with
  | nil => simp at h
  | cons x xs ih =>
    cases b with
    | nil => simp at h
    | cons y ys =>
      cases i with
      | zero => rfl
      | succ i =>
        simp only [List.zipWith_cons_cons, List.length_cons,
          Nat.succ_lt_succ_iff] at h
        simpa using ih ys i h

theorem getD_dualDirList (s d dsl c : List ℚ) (i : ℕ)
    (h : i < (pdipm.dualDirList s d dsl c).length) :
    (pdipm.dualDirList s d dsl c).getD i 0
      = -(d.getD i 0 * dsl.getD i 0 + c.getD i 0) / s.getD i 0 := by
  induction s generalizing d dsl c i with
  | nil => simp [pdipm.dualDirList] at h
  | cons x xs ih =>
    cases d with
    | nil => simp [pdipm.dualDirList] at h
    | cons y ys =>
      cases dsl with
      | nil => simp [pdipm.dualDirList] at h
      | cons z zs =>
        cases c with
        | nil => simp [pdipm.dualDirList] at h
        | cons w ws =>
          cases i with
          | zero => rfl
          | succ i =>
            simp only [pdipm.dualDirList, List.length_cons,
              Nat.succ_lt_succ_iff] at h
            simpa [pdipm.dualDirList] using ih ys zs ws i h

theorem vsub_vsub_comm (a b c : Vec) :
    vsub (vsub a b) c = vsub (vsub a c) b := by
  induction a generalizing b c with
  | nil => simp [vsub]
  | cons x xs ih =>
    cases b with
    | nil => simp [vsub]
    | cons y ys =>
      cases c with
      | nil => simp [vsub]
      | cons z zs =>
        simp only [vsub, List.zipWith_cons_cons, List.cons.injEq]
        exact ⟨by ring, ih ys zs⟩

theorem setTimeStage_flags (ts : Int) (d : ConstraintsData) :
    (ConstraintsData.setTimeStage ts d).is_position_level_valid = decide (2 ≤ ts)
    ∧ (ConstraintsData.setTimeStage ts d).is_velocity_level_valid = decide (1 ≤ ts)
    ∧ (ConstraintsData.setTimeStage ts d).is_acceleration_level_valid = decide (0 ≤ ts)
    ∧ (ConstraintsData.setTimeStage ts d).is_impulse_level_valid = decide (ts ≤ -1) := by
  unfold ConstraintsData.setTimeStage
  split_ifs with h1 h2 h3 h4 <;>
    refine ⟨?_, ?_, ?_, ?_⟩ <;>
      first
        | omega
        | (symm; rw [decide_eq_true_eq]; omega)
        | (symm; rw [decide_eq_false_iff_not]; omega)

theorem setTimeStage_data_eq (ts : Int) (d : ConstraintsData) :
    (ConstraintsData.setTimeStage ts d).position_level_data = d.position_level_data
    ∧ (ConstraintsData.setTimeStage ts d).velocity_level_data = d.velocity_level_data
    ∧ (ConstraintsData.setTimeStage ts d).acceleration_level_data
        = d.acceleration_level_data
    ∧ (ConstraintsData.setTimeStage ts d).impulse_level_data = d.impulse_level_data := by
  unfold ConstraintsData.setTimeStage
  split_ifs <;> exact ⟨rfl, rfl, rfl, rfl⟩

theorem unstackActive_stackActive (cs : List (ContactType × Bool)) (ws : List Vec6) :
    unstackActive cs ws (stackActive cs ws) = ws := by
  induction cs generalizing ws with
  | nil => cases ws <;> rfl
  | cons c cs ih =>
    obtain ⟨ct, active⟩ := c
    cases ws with
    | nil => rfl
    | cons w ws =>
      cases active with
      | false => simpa [stackActive, unstackActive] using ih ws
      | true =>
        cases ct with
        | PointContact => simpa [stackActive, unstackActive] using ih ws
        | SurfaceContact => simpa [stackActive, unstackActive] using ih ws

theorem ftbStep_le (rate m : ℚ) (p : ℚ × ℚ) : pdipm.ftbStep rate m p ≤ m := by
  unfold pdipm.ftbStep
  split_ifs
  · exact min_le_left _ _
  · exact le_refl m

theorem ftb_foldl_le (rate : ℚ) (l : List (ℚ × ℚ)) (m : ℚ) :
    l.foldl (pdipm.ftbStep rate) m ≤ m := by
  induction l generalizing m with
  | nil => simp
  | cons p l ih =>
    rw [List.foldl_cons]
    exact le_trans (ih (pdipm.ftbStep rate m p)) (ftbStep_le rate m p)

theorem ftbStep_pos (rate m : ℚ) (p : ℚ × ℚ) (hrate : 0 < rate)
    (hp : 0 < p.1) (hm : 0 < m) : 0 < pdipm.ftbStep rate m p := by
  unfold pdipm.ftbStep
  split_ifs with hd
  · exact lt_min hm (div_pos_of_neg_of_neg (by nlinarith) hd)
  · exact hm

theorem ftb_foldl_pos (rate : ℚ) (l : List (ℚ × ℚ)) (m : ℚ) (hrate : 0 < rate)
    (hl : ∀ p ∈ l, 0 < p.1) (hm : 0 < m) :
    0 < l.foldl (pdipm.ftbStep rate) m := by
  induction l generalizing m with
  | nil => simpa
  | cons p l ih =>
    rw [List.foldl_cons]
    exact ih _ (fun q hq => hl q (List.mem_cons_of_mem _ hq))
      (ftbStep_pos rate m p hrate (hl p (List.mem_cons_self _ _)) hm)

theorem ftb_foldl_le_cand (rate : ℚ) (l : List (ℚ × ℚ)) (p : ℚ × ℚ)
    (hd : p.2 < 0) :
    ∀ m, p ∈ l → l.foldl (pdipm.ftbStep rate) m ≤ -(rate * p.1) / p.2 := by
  induction l with
  | nil =>
    intro m hp
    simp at hp
  | cons q l ih =>
    intro m hp
    rw [List.foldl_cons]
    rcases List.mem_cons.mp hp with heq | hmem
    · refine le_trans (ftb_foldl_le rate l _) ?_
      subst heq
      unfold pdipm.ftbStep
      rw [if_pos hd]
      exact min_le_right _ _
    · exact ih (pdipm.ftbStep rate m q) hmem

theorem ftb_foldl_maximal (rate : ℚ) (l : List (ℚ × ℚ)) (α : ℚ) :
    ∀ m, (∀ p ∈ l, 0 ≤ rate * p.1 + α * p.2) → α ≤ m →
      α ≤ l.foldl (pdipm.ftbStep rate) m := by
  induction l with
  | nil =>
    intro m _ hm
    simpa using hm
  | cons p l ih =>
    intro m hfeas hm
    rw [List.foldl_cons]
    refine ih _ (fun q hq => hfeas q (List.mem_cons_of_mem _ hq)) ?_
    unfold pdipm.ftbStep
    split_ifs with hd
    · refine le_min hm ?_
      have h := hfeas p (List.mem_cons_self _ _)
      rw [le_div_iff_of_neg hd]
      linarith
    · exact hm

theorem ftb_feasible (rate : ℚ) (vec dvec : Vec) (hrate : 0 < rate)
    (hpos : ∀ x ∈ vec, 0 < x) :
    ∀ p ∈ vec.zip dvec,
      0 ≤ rate * p.1 + pdipm.fractionToBoundary rate vec dvec * p.2 := by
  intro p hp
  unfold pdipm.fractionToBoundary
  have hp1 : 0 < p.1 := hpos p.1 (List.of_mem_zip hp).1
  have hstep : 0 < List.foldl (pdipm.ftbStep rate) 1 (vec.zip dvec) :=
    ftb_foldl_pos rate _ 1 hrate
      (fun q hq => hpos q.1 (List.of_mem_zip hq).1) one_pos
  by_cases hd : p.2 < 0
  · have hle := ftb_foldl_le_cand rate (vec.zip dvec) p hd 1 hp
    have := (le_div_iff_of_neg hd).mp hle
    linarith
  · push_neg at hd
    have h1 := mul_nonneg hstep.le hd
    nlinarith

theorem vadd_vscale_eq_map (c : ℚ) (vec dvec : Vec) :
    vadd vec (vscale c dvec) = (vec.zip dvec).map (fun p => p.1 + c * p.2) := by
  induction vec generalizing dvec with
  | nil => cases dvec <;> rfl
  | cons x xs ih =>
    cases dvec with
    | nil => rfl
    | cons y ys =>
      simpa [vadd, vscale] using ih ys

/-! ### C1: fraction to boundary -/

/-- C1 counterexample: with rate 1/2, vec = [1] and dvec = [-1], the step
size 1 lies in (0,1] and keeps vec + 1*dvec elementwise nonnegative, yet
fractionToBoundary returns 1/2 < 1, so the returned value is not the
largest step in (0,1] with vec + step*dvec >= 0. -/
theorem fractionToBoundary_not_largest_nonneg_step :
    pdipm.fractionToBoundary (1/2) [1] [-1] = 1/2
    ∧ ((0:ℚ) < 1 ∧ (1:ℚ) ≤ 1)
    ∧ vnonneg (vadd [1] (vscale 1 [-1]))
    ∧ pdipm.fractionToBoundary (1/2) [1] [-1] < 1 := by
  have h : pdipm.fractionToBoundary (1/2) [1] [-1] = 1/2 := by
    show List.foldl (pdipm.ftbStep (1/2)) 1 [((1:ℚ), (-1:ℚ))] = 1/2
    rw [List.foldl_cons, List.foldl_nil]
    unfold pdipm.ftbStep
    rw [if_pos (by norm_num)]
    norm_num [min_def]
  refine ⟨h, ⟨by norm_num, le_refl 1⟩, ?_, by rw [h]; norm_num⟩
  intro x hx
  simp [vadd, vscale] at hx
  norm_num [hx]

/-- C1 (amended): for strictly positive vec and rate in (0,1),
fractionToBoundary returns the largest step in (0,1] satisfying the
fraction-to-boundary margin `vec + step*dvec >= (1-rate)*vec` elementwise
(not the plain nonnegativity bound); consequently vec + step*dvec has
nonnegative minimum coefficient, and maxSlackStepSize / maxDualStepSize
return exactly this value on the slack (resp. dual) and its direction
with the configured boundary-fraction parameter. -/
theorem fractionToBoundary_rule (rate : ℚ) (vec dvec : Vec)
    (hrate0 : 0 < rate) (hrate1 : rate < 1) (hpos : ∀ x ∈ vec, 0 < x) :
    (0 < pdipm.fractionToBoundary rate vec dvec
      ∧ pdipm.fractionToBoundary rate vec dvec ≤ 1)
    ∧ (∀ p ∈ vec.zip dvec,
        (1 - rate) * p.1 ≤ p.1 + pdipm.fractionToBoundary rate vec dvec * p.2)
    ∧ (∀ α : ℚ, 0 < α → α ≤ 1 →
        (∀ p ∈ vec.zip dvec, (1 - rate) * p.1 ≤ p.1 + α * p.2) →
        α ≤ pdipm.fractionToBoundary rate vec dvec)
    ∧ vnonneg (vadd vec (vscale (pdipm.fractionToBoundary rate vec dvec) dvec))
    ∧ (∀ b : ConstraintComponentBase, ∀ data : ConstraintComponentData,
        b.fraction_to_boundary_rule = rate → data.slack = vec →
        data.dslack = dvec →
        b.maxSlackStepSize data = pdipm.fractionToBoundary rate vec dvec)
    ∧ (∀ b : ConstraintComponentBase, ∀ data : ConstraintComponentData,
        b.fraction_to_boundary_rule = rate → data.dual = vec →
        data.ddual = dvec →
        b.maxDualStepSize data = pdipm.fractionToBoundary rate vec dvec) := by
  have hfeas := ftb_feasible rate vec dvec hrate0 hpos
  refine ⟨⟨?_, ?_⟩, ?_, ?_, ?_, ?_, ?_⟩
  · exact ftb_foldl_pos rate _ 1 hrate0
      (fun q hq => hpos q.1 (List.of_mem_zip hq).1) one_pos
  · exact ftb_foldl_le rate _ 1
  · intro p hp
    have := hfeas p hp
    linarith
  · intro α hα0 hα1 hf
    refine ftb_foldl_maximal rate _ α 1 (fun p hp => ?_) hα1
    have := hf p hp
    linarith
  · rw [vadd_vscale_eq_map]
    intro x hx
    obtain ⟨p, hp, rfl⟩ := List.mem_map.mp hx
    have h1 := hfeas p hp
    have hp1 : 0 < p.1 := hpos p.1 (List.of_mem_zip hp).1
    have h2 : 0 ≤ (1 - rate) * p.1 :=
      mul_nonneg (by linarith) hp1.le
    linarith
  · intro b data hb hs hd
    unfold ConstraintComponentBase.maxSlackStepSize pdipm.fractionToBoundarySlack
    rw [hb, hs, hd]
  · intro b data hb hs hd
    unfold ConstraintComponentBase.maxDualStepSize pdipm.fractionToBoundaryDual
    rw [hb, hs, hd]

/-- C1 witness: at rate 1/2, vec = [1], dvec = [-1] the returned step lies
in (0,1] and keeps the updated vector elementwise nonnegative. -/
theorem fractionToBoundary_rule_witness :
    (0 < pdipm.fractionToBoundary (1/2) [1] [-1]
      ∧ pdipm.fractionToBoundary (1/2) [1] [-1] ≤ 1)
    ∧ vnonneg (vadd [1]
        (vscale (pdipm.fractionToBoundary (1/2) [1] [-1]) [-1])) := by
  have h := fractionToBoundary_rule (1/2) [1] [-1] (by norm_num) (by norm_num)
    (by
      intro x hx
      rw [List.mem_singleton] at hx
      rw [hx]
      norm_num)
  exact ⟨h.1, h.2.2.2.1⟩

/-! ### C4: complementary slackness -/

/-- C4 counterexample: with every slack and dual entry equal to 1 and the
barrier equal to 0, the computed complementary-slackness residual is
1 * 1 - 0 = 1 in every component, not 0 as the claim states. -/
theorem computeComplementarySlackness_ones_not_zero :
    (pdipm.computeComplementarySlackness 0
        ⟨[], [1], [1], [], [], [], 0⟩).cmpl = [1]
    ∧ (pdipm.computeComplementarySlackness 0
        ⟨[], [1], [1], [], [], [], 0⟩).cmpl ≠ [0] := by
  have h : (pdipm.computeComplementarySlackness 0
      (⟨[], [1], [1], [], [], [], 0⟩ : ConstraintComponentData)).cmpl
      = [1 * 1 - 0] := rfl
  rw [h]
  norm_num

/-- C4 (amended): computeComplementarySlackness sets
`cmpl_i = slack_i * dual_i - barrier` for every index i; in particular,
with every slack and dual entry equal to 1 and the barrier equal to 0 the
computed residual is 1 in every component (it is 0 exactly when
`slack_i * dual_i` equals the barrier). -/
theorem computeComplementarySlackness_formula (barrier : ℚ)
    (data : ConstraintComponentData) :
    (∀ i : ℕ, i < (pdipm.computeComplementarySlackness barrier data).cmpl.length →
      (pdipm.computeComplementarySlackness barrier data).cmpl.getD i 0
        = data.slack.getD i 0 * data.dual.getD i 0 - barrier)
    ∧ (∀ n : ℕ, data.slack = List.replicate n 1 → data.dual = List.replicate n 1 →
        (pdipm.computeComplementarySlackness 0 data).cmpl = List.replicate n 1) := by
  constructor
  · intro i h
    exact getD_zipWith _ data.slack data.dual i h
  · intro n hs hd
    simp only [pdipm.computeComplementarySlackness, hs, hd]
    clear hs hd
    induction n with
    | zero => rfl
    | succ k ihk =>
      simp only [List.replicate_succ, List.zipWith_cons_cons,
        List.cons.injEq] at ihk ⊢
      exact ⟨by norm_num, ihk⟩

/-- C4 witness: at slack = [3,4], dual = [5,6], barrier = 2, the first
computed residual equals 3 * 5 - 2 = 13, and with slack = dual = [1,1] and
barrier = 0 the residual is 1 in every component. -/
theorem computeComplementarySlackness_formula_witness :
    (pdipm.computeComplementarySlackness 2
        ⟨[], [3, 4], [5, 6], [], [], [], 0⟩).cmpl.getD 0 0 = 13
    ∧ (pdipm.computeComplementarySlackness 0
        ⟨[], [1, 1], [1, 1], [], [], [], 0⟩).cmpl = List.replicate 2 1 := by
  have h := computeComplementarySlackness_formula 2
    (⟨[], [3, 4], [5, 6], [], [], [], 0⟩ : ConstraintComponentData)
  have h2 := computeComplementarySlackness_formula 0
    (⟨[], [1, 1], [1, 1], [], [], [], 0⟩ : ConstraintComponentData)
  refine ⟨?_, h2.2 2 (by decide) (by decide)⟩
  rw [h.1 0 (by decide)]
  norm_num [List.getD_cons_zero]

/-! ### C5: dual direction -/

/-- C5: computeDualDirection sets
`ddual_i = -(dual_i * dslack_i + cmpl_i) / slack_i` for every index i. -/
theorem computeDualDirection_formula (data : ConstraintComponentData)
    (hpos : ∀ x ∈ data.slack, 0 < x) :
    ∀ i : ℕ, i < (pdipm.computeDualDirection data).ddual.length →
      (pdipm.computeDualDirection data).ddual.getD i 0
        = -(data.dual.getD i 0 * data.dslack.getD i 0 + data.cmpl.getD i 0)
            / data.slack.getD i 0 := by
  intro i h
  exact getD_dualDirList data.slack data.dual data.dslack data.cmpl i h

/-- C5 witness: at slack = [2], dual = [3], dslack = [4], cmpl = [6], the
computed dual direction is -(3 * 4 + 6) / 2 = -9. -/
theorem computeDualDirection_formula_witness :
    (pdipm.computeDualDirection ⟨[], [2], [3], [6], [4], [9], 0⟩).ddual.getD 0 0
      = -9 := by
  have h := computeDualDirection_formula
    (⟨[], [2], [3], [6], [4], [9], 0⟩ : ConstraintComponentData)
    (by decide) 0 (by decide)
  rw [h]
  norm_num [List.getD_cons_zero]

/-! ### C8: setSlackAndDualPositive -/

/-- C8: after setSlackAndDualPositive, every slack entry and every dual
entry is at least the barrier parameter, for arbitrary prior values. -/
theorem setSlackAndDualPositive_lower_bound (barrier : ℚ)
    (data : ConstraintComponentData) :
    (∀ x ∈ (pdipm.setSlackAndDualPositive barrier data).slack, barrier ≤ x)
    ∧ (∀ x ∈ (pdipm.setSlackAndDualPositive barrier data).dual, barrier ≤ x) := by
  constructor
  · intro x hx
    simp only [pdipm.setSlackAndDualPositive, List.mem_map] at hx
    obtain ⟨y, -, rfl⟩ := hx
    exact le_max_right y barrier
  · intro x hx
    simp only [pdipm.setSlackAndDualPositive, List.mem_map] at hx
    obtain ⟨y, -, rfl⟩ := hx
    exact le_max_right y barrier

/-- C8 witness: with barrier 2 and slack = [-5, 3], dual = [0, 7], the first
updated slack entry (previously negative) is at least the barrier. -/
theorem setSlackAndDualPositive_lower_bound_witness :
    (2:ℚ) ≤ (pdipm.setSlackAndDualPositive 2
        ⟨[], [-5, 3], [0, 7], [], [], [], 0⟩).slack.getD 0 0 := by
  have h := (setSlackAndDualPositive_lower_bound 2
    (⟨[], [-5, 3], [0, 7], [], [], [], 0⟩ : ConstraintComponentData)).1
  exact h _ (by decide)

/-! ### C2: configuration and dimension errors -/

/-- C2 counterexample: a non-positive worker count at solver construction
and a reference-force vector of the wrong length are both turned into
std::exit(EXIT_FAILURE) by the catch handler at the call site; neither
call returns a recoverable error to the caller, contradicting the claim
that the process is not aborted. -/
theorem config_errors_are_process_exits :
    (DirectMultipleShooting.construct 10 0 0).isProcessExit = true
    ∧ (LocalContactForceCost.set_f_ref ⟨1, [⟨0, 0, 0⟩], [⟨0, 0, 0⟩]⟩
        []).isProcessExit = true := by
  constructor <;> rfl

/-- C2 (amended): a ConfigurationError (non-positive worker count) or a
DimensionMismatch (reference list whose length disagrees with the number
of contacts) is detected locally and synchronously at the call site, but
it is surfaced by printing the exception message and terminating the
process via std::exit(EXIT_FAILURE); no recoverable error is returned to
the caller. -/
theorem config_errors_exit_process (N max_num_impulse nthreads : Int)
    (cost : LocalContactForceCost) (f_ref : List V3)
    (h1 : 0 ≤ max_num_impulse) (h2 : nthreads ≤ 0)
    (h3 : f_ref.length ≠ cost.max_point_contacts) :
    (DirectMultipleShooting.construct N max_num_impulse nthreads).isProcessExit
        = true
    ∧ (cost.set_f_ref f_ref).isProcessExit = true := by
  constructor
  · simp only [DirectMultipleShooting.construct]
    rw [if_neg (by omega), if_pos h2]
    rfl
  · simp only [LocalContactForceCost.set_f_ref, if_pos h3]
    rfl

/-- C2 witness: the amended behavior at the concrete invalid inputs
N = 10, max_num_impulse = 0, nthreads = 0 and an empty reference list
against a one-contact model. -/
theorem config_errors_exit_process_witness :
    (DirectMultipleShooting.construct 10 0 0).isProcessExit = true
    ∧ (LocalContactForceCost.set_f_ref ⟨1, [⟨0, 0, 0⟩], [⟨0, 0, 0⟩]⟩
        [⟨1, 1, 1⟩, ⟨2, 2, 2⟩]).isProcessExit = true :=
  config_errors_exit_process 10 0 0 ⟨1, [⟨0, 0, 0⟩], [⟨0, 0, 0⟩]⟩
    [⟨1, 1, 1⟩, ⟨2, 2, 2⟩] (by decide) (by decide) (by decide)

/-! ### C3: initial state direction -/

/-- C3: the state-deviation component of the search direction at the first
stage is exactly zero for every solution iterate and every supplied
initial state. -/
theorem computeInitialStateDirection_zero (q0 v0 : Vec)
    (s : List SplitSolution) (d : List SplitDirection)
    (hs : s ≠ []) (hd : d ≠ []) :
    vzero ((DirectMultipleShooting.computeInitialStateDirection q0 v0 s d).headD
      ⟨[], []⟩).dq
    ∧ vzero ((DirectMultipleShooting.computeInitialStateDirection q0 v0 s d).headD
      ⟨[], []⟩).dv := by
  cases s with
  | nil => exact absurd rfl hs
  | cons s0 srest =>
    cases d with
    | nil => exact absurd rfl hd
    | cons d0 drest =>
      simp only [DirectMultipleShooting.computeInitialStateDirection,
        SplitOCP.computeInitialStateDirection, List.headD_cons]
      constructor <;> · intro x hx; exact List.eq_of_mem_replicate hx

/-- C3 witness: a concrete nonzero solution iterate and initial state
still produce an all-zero first-stage state-deviation direction. -/
theorem computeInitialStateDirection_zero_witness :
    vzero ((DirectMultipleShooting.computeInitialStateDirection [5] [7]
      [⟨[1], [2], [], [], []⟩] [⟨[9, 9], [8]⟩]).headD ⟨[], []⟩).dq
    ∧ vzero ((DirectMultipleShooting.computeInitialStateDirection [5] [7]
      [⟨[1], [2], [], [], []⟩] [⟨[9, 9], [8]⟩]).headD ⟨[], []⟩).dv :=
  computeInitialStateDirection_zero [5] [7] [⟨[1], [2], [], [], []⟩]
    [⟨[9, 9], [8]⟩] (by simp) (by simp)

/-! ### C6: contact dynamics residuals -/

/-- C6: evalContactDynamics computes the equality residual as the inverse
dynamics ID(q,v,a) minus the applied control u and minus the contact-force
term J^T f, this residual is zero exactly when ID(q,v,a) - u - J^T f = 0,
and the contact-constraint residual is the Baumgarte-stabilized
acceleration-level residual C(q,v,a). -/
theorem evalContactDynamics_residuals (robot : Robot) (cs : ContactStatus)
    (s : SplitSolution) :
    ((ContactDynamics.evalContactDynamics robot cs s).2.ID_res
      = vsub (vsub (robot.model.ID s.q s.v s.a) s.u)
          (robot.model.JTf s.q cs s.f))
    ∧ (vzero (ContactDynamics.evalContactDynamics robot cs s).2.ID_res ↔
        vzero (vsub (vsub (robot.model.ID s.q s.v s.a) s.u)
          (robot.model.JTf s.q cs s.f)))
    ∧ ((ContactDynamics.evalContactDynamics robot cs s).2.C_res
      = robot.model.baum cs s.q s.v s.a) := by
  have key : (ContactDynamics.evalContactDynamics robot cs s).2.ID_res
      = vsub (vsub (robot.model.ID s.q s.v s.a)
          (robot.model.JTf s.q cs s.f)) s.u := rfl
  rw [key, vsub_vsub_comm]
  exact ⟨rfl, Iff.rfl, rfl⟩

/-! ### C7: stacking round trip -/

/-- C7: stacking the per-contact forces into the active stack and
unstacking again restores f, and likewise for the contact-constraint
multipliers mu, for every contact configuration including the one with
zero active contacts. -/
theorem f_mu_stack_roundtrip (s : ImpulseSplitSolution) :
    (s.set_f_stack.set_f_vector).f = s.f
    ∧ (s.set_mu_stack.set_mu_vector).mu = s.mu :=
  ⟨unstackActive_stackActive s.contacts s.f,
   unstackActive_stackActive s.contacts s.mu⟩

/-! ### C9: constraint validity per time stage -/

/-- C9: setTimeStage establishes exactly one of four validity
configurations (position/velocity/acceleration valid for stages from 2 on,
velocity/acceleration at stage 1, acceleration only at stage 0, impulse
only for negative stages), and the aggregates KKTError, logBarrier and
primal/dual feasibility sum only over the levels valid for that stage. -/
theorem setTimeStage_validity_and_aggregates (ts : Int) (d : ConstraintsData) :
    (2 ≤ ts →
      (ConstraintsData.setTimeStage ts d).is_position_level_valid = true
      ∧ (ConstraintsData.setTimeStage ts d).is_velocity_level_valid = true
      ∧ (ConstraintsData.setTimeStage ts d).is_acceleration_level_valid = true
      ∧ (ConstraintsData.setTimeStage ts d).is_impulse_level_valid = false)
    ∧ (ts = 1 →
      (ConstraintsData.setTimeStage ts d).is_position_level_valid = false
      ∧ (ConstraintsData.setTimeStage ts d).is_velocity_level_valid = true
      ∧ (ConstraintsData.setTimeStage ts d).is_acceleration_level_valid = true
      ∧ (ConstraintsData.setTimeStage ts d).is_impulse_level_valid = false)
    ∧ (ts = 0 →
      (ConstraintsData.setTimeStage ts d).is_position_level_valid = false
      ∧ (ConstraintsData.setTimeStage ts d).is_velocity_level_valid = false
      ∧ (ConstraintsData.setTimeStage ts d).is_acceleration_level_valid = true
      ∧ (ConstraintsData.setTimeStage ts d).is_impulse_level_valid = false)
    ∧ (ts ≤ -1 →
      (ConstraintsData.setTimeStage ts d).is_position_level_valid = false
      ∧ (ConstraintsData.setTimeStage ts d).is_velocity_level_valid = false
      ∧ (ConstraintsData.setTimeStage ts d).is_acceleration_level_valid = false
      ∧ (ConstraintsData.setTimeStage ts d).is_impulse_level_valid = true)
    ∧ (ConstraintsData.setTimeStage ts d).KKTError
      = (if 2 ≤ ts then (d.position_level_data.map (fun c => c.kkt_error)).sum else 0)
        + (if 1 ≤ ts then (d.velocity_level_data.map (fun c => c.kkt_error)).sum else 0)
        + (if 0 ≤ ts then (d.acceleration_level_data.map (fun c => c.kkt_error)).sum else 0)
        + (if ts ≤ -1 then (d.impulse_level_data.map (fun c => c.kkt_error)).sum else 0)
    ∧ (ConstraintsData.setTimeStage ts d).logBarrier
      = (if 2 ≤ ts then (d.position_level_data.map (fun c => c.log_barrier)).sum else 0)
        + (if 1 ≤ ts then (d.velocity_level_data.map (fun c => c.log_barrier)).sum else 0)
        + (if 0 ≤ ts then (d.acceleration_level_data.map (fun c => c.log_barrier)).sum else 0)
        + (if ts ≤ -1 then (d.impulse_level_data.map (fun c => c.log_barrier)).sum else 0)
    ∧ (ConstraintsData.setTimeStage ts d).primalFeasibility
      = (if 2 ≤ ts then (d.position_level_data.map (fun c => c.primal_feasibility)).sum else 0)
        + (if 1 ≤ ts then (d.velocity_level_data.map (fun c => c.primal_feasibility)).sum else 0)
        + (if 0 ≤ ts then (d.acceleration_level_data.map (fun c => c.primal_feasibility)).sum else 0)
        + (if ts ≤ -1 then (d.impulse_level_data.map (fun c => c.primal_feasibility)).sum else 0)
    ∧ (ConstraintsData.setTimeStage ts d).dualFeasibility
      = (if 2 ≤ ts then (d.position_level_data.map (fun c => c.dual_feasibility)).sum else 0)
        + (if 1 ≤ ts then (d.velocity_level_data.map (fun c => c.dual_feasibility)).sum else 0)
        + (if 0 ≤ ts then (d.acceleration_level_data.map (fun c => c.dual_feasibility)).sum else 0)
        + (if ts ≤ -1 then (d.impulse_level_data.map (fun c => c.dual_feasibility)).sum else 0) := by
  obtain ⟨hp, hv, ha, hi⟩ := setTimeStage_flags ts d
  obtain ⟨dp, dv, da, di⟩ := setTimeStage_data_eq ts d
  have agg : ∀ g : ComponentSummary → ℚ,
      (ConstraintsData.setTimeStage ts d).sumValid g
        = (if 2 ≤ ts then (d.position_level_data.map g).sum else 0)
          + (if 1 ≤ ts then (d.velocity_level_data.map g).sum else 0)
          + (if 0 ≤ ts then (d.acceleration_level_data.map g).sum else 0)
          + (if ts ≤ -1 then (d.impulse_level_data.map g).sum else 0) := by
    intro g
    unfold ConstraintsData.sumValid
    rw [hp, hv, ha, hi, dp, dv, da, di]
    simp only [decide_eq_true_eq]
  refine ⟨?_, ?_, ?_, ?_, agg _, agg _, agg _, agg _⟩ <;>
    · intro h
      rw [hp, hv, ha, hi]
      refine ⟨?_, ?_, ?_, ?_⟩ <;> simp <;> omega

/-- C9 witness: the configuration flags evaluated at the concrete stages
2, 1, 0 and -1 on empty component lists. -/
theorem setTimeStage_validity_witness :
    ((ConstraintsData.setTimeStage 2 ⟨false, false, false, false, [], [], [], []⟩).is_position_level_valid = true
      ∧ (ConstraintsData.setTimeStage 2 ⟨false, false, false, false, [], [], [], []⟩).is_impulse_level_valid = false)
    ∧ (ConstraintsData.setTimeStage 1 ⟨false, false, false, false, [], [], [], []⟩).is_position_level_valid = false
    ∧ (ConstraintsData.setTimeStage 0 ⟨false, false, false, false, [], [], [], []⟩).is_velocity_level_valid = false
    ∧ (ConstraintsData.setTimeStage (-1) ⟨false, false, false, false, [], [], [], []⟩).is_impulse_level_valid = true := by
  have h2 := (setTimeStage_validity_and_aggregates 2
    ⟨false, false, false, false, [], [], [], []⟩).1 (by decide)
  have h1 := ((setTimeStage_validity_and_aggregates 1
    ⟨false, false, false, false, [], [], [], []⟩).2).1 (by decide)
  have h0 := (((setTimeStage_validity_and_aggregates 0
    ⟨false, false, false, false, [], [], [], []⟩).2).2).1 (by decide)
  have hm := ((((setTimeStage_validity_and_aggregates (-1)
    ⟨false, false, false, false, [], [], [], []⟩).2).2).2).1 (by decide)
  exact ⟨⟨h2.1, h2.2.2.2⟩, h1.1, h0.2.1, hm.2.2.2⟩

/-! ### C10: inactive task-space reference -/

/-- C10: when the time-varying task-space reference is inactive at time t,
the stage, terminal and impulse cost evaluations return exactly 0, and the
derivative and Hessian evaluations leave the supplied KKT residual block
and KKT matrix block unchanged. -/
theorem taskSpace6DCost_inactive_noop {M Mat : Type} (ops : LieOps M Mat)
    (kin : FrameKinematics M Mat) (cost : TimeVaryingTaskSpace6DCost M)
    (t dt : ℚ) (data : CostFunctionData M Mat) (lq : Vec) (Qqq : Mat)
    (h : cost.ref.isActive t = false) :
    (TimeVaryingTaskSpace6DCost.evalStageCost ops kin cost t dt data).1 = 0
    ∧ (TimeVaryingTaskSpace6DCost.evalTerminalCost ops kin cost t data).1 = 0
    ∧ (TimeVaryingTaskSpace6DCost.evalImpulseCost ops kin cost t data).1 = 0
    ∧ (TimeVaryingTaskSpace6DCost.evalStageCostDerivatives ops kin cost t dt
        data lq).2 = lq
    ∧ (TimeVaryingTaskSpace6DCost.evalTerminalCostDerivatives ops kin cost t
        data lq).2 = lq
    ∧ (TimeVaryingTaskSpace6DCost.evalImpulseCostDerivatives ops kin cost t
        data lq).2 = lq
    ∧ TimeVaryingTaskSpace6DCost.evalStageCostHessian ops cost t dt data Qqq = Qqq
    ∧ TimeVaryingTaskSpace6DCost.evalTerminalCostHessian ops cost t data Qqq = Qqq
    ∧ TimeVaryingTaskSpace6DCost.evalImpulseCostHessian ops cost t data Qqq
        = Qqq := by
  simp [TimeVaryingTaskSpace6DCost.evalStageCost,
    TimeVaryingTaskSpace6DCost.evalTerminalCost,
    TimeVaryingTaskSpace6DCost.evalImpulseCost,
    TimeVaryingTaskSpace6DCost.evalStageCostDerivatives,
    TimeVaryingTaskSpace6DCost.evalTerminalCostDerivatives,
    TimeVaryingTaskSpace6DCost.evalImpulseCostDerivatives,
    TimeVaryingTaskSpace6DCost.evalStageCostHessian,
    TimeVaryingTaskSpace6DCost.evalTerminalCostHessian,
    TimeVaryingTaskSpace6DCost.evalImpulseCostHessian, h]

/-- C10 witness: a concrete always-inactive reference over trivial SE3 and
matrix carriers evaluates the stage cost to 0 and leaves a nonzero KKT
residual block untouched. -/
theorem taskSpace6DCost_inactive_noop_witness :
    (TimeVaryingTaskSpace6DCost.evalStageCost
      (⟨fun _ => (), fun _ _ => (), fun _ => [], fun _ => (), fun _ _ => (),
        fun _ => (), fun _ _ => [], fun _ => (), fun _ _ => (), fun _ _ => ()⟩
        : LieOps Unit Unit)
      ⟨fun _ => (), fun _ => ()⟩
      ⟨3, ⟨fun _ => false, fun _ => ()⟩, [1], [1], [1]⟩
      0 1 ⟨(), (), (), [], (), (), ()⟩).1 = 0
    ∧ (TimeVaryingTaskSpace6DCost.evalStageCostDerivatives
      (⟨fun _ => (), fun _ _ => (), fun _ => [], fun _ => (), fun _ _ => (),
        fun _ => (), fun _ _ => [], fun _ => (), fun _ _ => (), fun _ _ => ()⟩
        : LieOps Unit Unit)
      ⟨fun _ => (), fun _ => ()⟩
      ⟨3, ⟨fun _ => false, fun _ => ()⟩, [1], [1], [1]⟩
      0 1 ⟨(), (), (), [], (), (), ()⟩ [7]).2 = [7] := by
  have h := taskSpace6DCost_inactive_noop
    (⟨fun _ => (), fun _ _ => (), fun _ => [], fun _ => (), fun _ _ => (),
      fun _ => (), fun _ _ => [], fun _ => (), fun _ _ => (), fun _ _ => ()⟩
      : LieOps Unit Unit)
    ⟨fun _ => (), fun _ => ()⟩
    ⟨3, ⟨fun _ => false, fun _ => ()⟩, [1], [1], [1]⟩
    0 1 ⟨(), (), (), [], (), (), ()⟩ [7] () rfl
  exact ⟨h.1, h.2.2.2.1⟩

end Robotoc
